import Mathlib

/-!
Verification development for the product-inventory-tracking PWA
(source: src/src/App.tsx).

Modelling conventions, used throughout:

* JavaScript strings are modelled as `List Char`.
* JavaScript numbers produced by `parseFloat` are modelled exactly as
  decimal fractions `JsNum` (an integer numerator over a power-of-ten
  denominator, kept unnormalised so that every operation is a plain
  integer computation and kernel-reduces).  All numerals exercised by the
  program's own data flow (packaging sizes, counts, totals) are exact in
  this representation; IEEE-754 rounding, the special values `NaN`
  and `Infinity` (accepted by `parseFloat` only via the literal word
  "Infinity", which this embedding does not model) are outside its scope.
* Counts are modelled as `Int` (the app only ever stores integers in
  them: they start at 0 and change by integral deltas).
* `parseInt(s, 10)` is modelled by `parseIntJS`; the `0x` hexadecimal
  corner of radix-free `parseInt` is not modelled (the app's sort-index
  field never goes through it in the claims considered).
* React state updates are modelled as pure functions on an `AppState`
  record; the `useEffect` that mirrors the active session to
  `localStorage` is modelled by `persistEffect`, applied after every
  committed mutation exactly as the effect runs after every commit.
-/

/-- JavaScript whitespace test (the subset relevant to the app's data:
space, tab, carriage return, line feed). -/
def jsIsWs (c : Char) : Bool := c.isWhitespace

/-- Decimal digit test, as used by `parseInt` / `parseFloat`. -/
def isDigitChar (c : Char) : Bool := c.isDigit

/-- The double-quote character, written via its code point. -/
def dquote : Char := Char.ofNat 34

/-- Numeric value of a list of decimal digit characters. -/
def digitsVal (cs : List Char) : Nat :=
  cs.foldl (fun a c => a * 10 + (c.toNat - 48)) 0

/-- Model of `String.prototype.trim`: strip leading and trailing whitespace. -/
def trimJS (cs : List Char) : List Char :=
  ((cs.dropWhile jsIsWs).reverse.dropWhile jsIsWs).reverse

/-- A JavaScript number as produced by `parseFloat` on a decimal
numeral: the exact rational `num / 10 ^ scale`.  Deliberately not
normalised; value equality is `JsNum.valEq`. -/
structure JsNum where
  num : Int
  scale : Nat
deriving DecidableEq, Repr

/-- Value (numeric) equality of two `JsNum`s, i.e. equality of the
rationals they denote. -/
def JsNum.valEq (a b : JsNum) : Prop :=
  a.num * (10 : Int) ^ b.scale = b.num * (10 : Int) ^ a.scale

instance (a b : JsNum) : Decidable (a.valEq b) := by
  unfold JsNum.valEq; infer_instance

/-- The JsNum denoting an integer. -/
def JsNum.ofInt (i : Int) : JsNum := ⟨i, 0⟩

/-- Model of `parseInt(s, 10)`: skip whitespace, optional sign, then the maximal
run of decimal digits; `none` models the `NaN` result (no digits). -/
def parseIntJS (cs : List Char) : Option Int :=
  let cs1 := cs.dropWhile jsIsWs
  let signAndRest : Int × List Char :=
    match cs1 with
    | '-' :: r => (-1, r)
    | '+' :: r => (1, r)
    | _ => (1, cs1)
  let ds := signAndRest.2.takeWhile isDigitChar
  if ds.isEmpty then none else some (signAndRest.1 * (digitsVal ds : Int))

/-- Model of `parseFloat(s)`: skip whitespace, optional sign, integer digits,
optional fraction, optional exponent; the longest valid numeric prefix
is used and trailing garbage ignored.  `none` models `NaN` (no digits at
all).  The exact decimal value is returned as a `JsNum`. -/
def parseFloatJS (cs : List Char) : Option JsNum :=
  let cs1 := cs.dropWhile jsIsWs
  let signAndRest : Int × List Char :=
    match cs1 with
    | '-' :: r => (-1, r)
    | '+' :: r => (1, r)
    | _ => (1, cs1)
  let sign := signAndRest.1
  let intDs := signAndRest.2.takeWhile isDigitChar
  let afterInt := signAndRest.2.dropWhile isDigitChar
  let fracAndRest : List Char × List Char :=
    match afterInt with
    | '.' :: r => (r.takeWhile isDigitChar, r.dropWhile isDigitChar)
    | _ => ([], afterInt)
  let fracDs := fracAndRest.1
  if intDs.isEmpty ∧ fracDs.isEmpty then none
  else
    let mantissa : Int := sign * ((digitsVal (intDs ++ fracDs) : Nat) : Int)
    let exp : Int :=
      match fracAndRest.2 with
      | c :: r =>
        if c = 'e' ∨ c = 'E' then
          let esignAndRest : Int × List Char :=
            match r with
            | '-' :: r2 => (-1, r2)
            | '+' :: r2 => (1, r2)
            | _ => (1, r)
          let eds := esignAndRest.2.takeWhile isDigitChar
          if eds.isEmpty then 0 else esignAndRest.1 * (digitsVal eds : Int)
        else 0
      | [] => 0
    let e : Int := exp - (fracDs.length : Int)
    if 0 ≤ e then some ⟨mantissa * (10 : Int) ^ e.toNat, 0⟩
    else some ⟨mantissa, (-e).toNat⟩

instance {ε α : Type} [DecidableEq ε] [DecidableEq α] : DecidableEq (Except ε α) := fun x y =>
  match x, y with
  | .error a, .error b =>
    if h : a = b then isTrue (h ▸ rfl) else isFalse (fun hh => h (Except.error.inj hh))
  | .ok a, .ok b =>
    if h : a = b then isTrue (h ▸ rfl) else isFalse (fun hh => h (Except.ok.inj hh))
  | .error _, .ok _ => isFalse (fun hh => Except.noConfusion hh)
  | .ok _, .error _ => isFalse (fun hh => Except.noConfusion hh)

/-- An imported product (interface `Product` in App.tsx). -/
structure Product where
  id : List Char
  name : List Char
  packagingSize : JsNum
  sortIndex : Option Int
deriving DecidableEq, Repr

/-- The structured content of the `Error` thrown by `parseCSV`
("Invalid packaging size at row …"): the 1-based row number and the
offending field text. -/
structure ParseError where
  row : Nat
  field : List Char
deriving DecidableEq, Repr

/-- Model of `text.split(/\r?\n/)`: split on newlines, a `\r` immediately before
the `\n` being consumed with it. -/
def splitLinesJS (cs : List Char) : List (List Char) :=
  (cs.splitOn '\n').map fun l =>
    match l.getLast? with
    | some c => if c = '\r' then l.dropLast else l
    | none => l

/-- The nonblank lines of the import text
(`text.split(/\r?\n/).filter(line => line.trim())`, App.tsx line 131). -/
def filteredLines (cs : List Char) : List (List Char) :=
  (splitLinesJS cs).filter fun l => !(trimJS l).isEmpty

/-- One step of the quote-aware field scanner of `parseCSV`
(App.tsx lines 138-152): a double quote toggles the in-quotes flag, a
comma outside quotes ends the current field, any other character is
appended to it. -/
def splitFieldsStep (st : List (List Char) × List Char × Bool) (c : Char) :
    List (List Char) × List Char × Bool :=
  let values := st.1
  let current := st.2.1
  let inQuotes := st.2.2
  if c = dquote then (values, current, !inQuotes)
  else if c = ',' ∧ !inQuotes then (values ++ [current], [], inQuotes)
  else (values, current ++ [c], inQuotes)

/-- The fields of one CSV line, before trimming
(the `values` array of App.tsx lines 138-153, final push included). -/
def splitFields (line : List Char) : List (List Char) :=
  let st := line.foldl splitFieldsStep ([], [], false)
  st.1 ++ [st.2.1]

/-- Model of `v.trim().replace(/^"|"$/g, "")`: trim, then strip one leading and
one trailing double quote (App.tsx line 156).  (The scanner never leaves
a quote in a field, so the stripping is vacuous on its output, but it is
kept for faithfulness.) -/
def cleanValue (v : List Char) : List Char :=
  let t := trimJS v
  let t1 := match t with
            | c :: r => if c = dquote then r else t
            | [] => t
  match t1.getLast? with
  | some c => if c = dquote then t1.dropLast else t1
  | none => t1

/-- The `cleanValues` of one line (App.tsx line 156). -/
def cleanFields (line : List Char) : List (List Char) :=
  (splitFields line).map cleanValue

/-- The sort-index field: `cleanValues[3] ? parseInt(cleanValues[3]) :
undefined` (App.tsx line 168).  An absent or empty (falsy) field gives
`none`; a present non-numeric field gives `NaN` in the source, also
modelled `none` (see the header on the `parseInt` model). -/
def sortIdxOf (cv : List (List Char)) : Option Int :=
  match cv[3]? with
  | some s => if s.isEmpty then none else parseIntJS s
  | none => none

/-- The row loop of `parseCSV` (App.tsx lines 135-171), with `i` the
0-based index of the current row among the nonblank lines: a row with at
least 3 cleaned fields whose third field does not parse as a number
aborts the whole parse with the 1-based row number; a row with fewer
than 3 fields is skipped; otherwise a `Product` is accumulated. -/
def parseRows : Nat → List (List Char) → Except ParseError (List Product)
  | _, [] => .ok []
  | i, line :: rest =>
    match (cleanFields line)[2]? with
    | none => parseRows (i + 1) rest
    | some psField =>
      match parseFloatJS psField with
      | none => .error ⟨i + 1, psField⟩
      | some ps =>
        match parseRows (i + 1) rest with
        | .error e => .error e
        | .ok prods =>
          .ok (⟨((cleanFields line)[0]?).getD [], ((cleanFields line)[1]?).getD [],
                ps, sortIdxOf (cleanFields line)⟩ :: prods)

/-- The comparator order of the template sort (App.tsx lines 174-178 and
253-257): ascending by sort index, an absent index (`?? Infinity`)
ordered after every present one, two absent indices tied. -/
def leKey (a b : Product) : Bool :=
  match a.sortIndex, b.sortIndex with
  | some x, some y => x ≤ y
  | some _, none => true
  | none, some _ => false
  | none, none => true

/-- Insert into a sorted list, before the first element not strictly
below: the insertion step of a stable sort by `leKey`. -/
def orderedInsertP (a : Product) : List Product → List Product
  | [] => [a]
  | b :: l => if leKey a b then a :: b :: l else b :: orderedInsertP a l

/-- Model of `products.sort((a, b) => (a.sortIndex ?? Infinity) - (b.sortIndex ??
Infinity))` (App.tsx lines 174-178, identically lines 253-257):
ECMAScript `Array.prototype.sort` is a stable sort consistent with the
comparator, and the stable sort by a total preorder is unique, so it is
modelled by insertion sort by `leKey`. -/
def sortProducts : List Product → List Product
  | [] => []
  | a :: l => orderedInsertP a (sortProducts l)

/-- The function `parseCSV` (App.tsx lines 130-179): filter blank lines, parse the
rows, sort the products. -/
def parseCSV (text : List Char) : Except ParseError (List Product) :=
  match parseRows 0 (filteredLines text) with
  | .error e => .error e
  | .ok prods => .ok (sortProducts prods)

/-- A per-item count record (interface `CountItem` in App.tsx). -/
structure CountItem where
  productId : List Char
  productName : List Char
  packagingSize : JsNum
  packageCount : Int
  singleCount : Int
deriving DecidableEq, Repr

/-- An archived tally (interface `SavedCount` in App.tsx). -/
structure SavedCount where
  id : List Char
  formName : List Char
  timestamp : List Char
  items : List CountItem
deriving DecidableEq, Repr

/-- A stored template (interface `FormTemplate` in App.tsx). -/
structure FormTemplate where
  id : List Char
  name : List Char
  products : List Product
  createdAt : List Char
deriving DecidableEq, Repr

/-- The object written under the session key
(`{ form: currentForm, counts: currentCounts }`, App.tsx line 122). -/
structure SessionData where
  form : FormTemplate
  counts : List CountItem
deriving DecidableEq, Repr

/-- The React state relevant to the claims, plus the durable session
slot (the value stored under `productCounter_session`). -/
structure AppState where
  templates : List FormTemplate
  savedCounts : List SavedCount
  currentForm : Option FormTemplate
  currentCounts : List CountItem
  storageSession : Option SessionData
deriving DecidableEq, Repr

/-- The session-persistence effect (App.tsx lines 120-127): after every
commit, the full session is written under the session key when a
template is selected and the count list is nonempty, and the key is
removed otherwise. -/
def persistEffect (s : AppState) : AppState :=
  { s with storageSession :=
      match s.currentForm with
      | some f => if s.currentCounts.isEmpty then none else some ⟨f, s.currentCounts⟩
      | none => none }

/-- The zeroed count record derived from one product
(`startCounting`'s map, App.tsx lines 276-282). -/
def zeroRecord (p : Product) : CountItem :=
  ⟨p.id, p.name, p.packagingSize, 0, 0⟩

/-- The zeroed count list of a template (App.tsx lines 275-283). -/
def startCounts (t : FormTemplate) : List CountItem :=
  t.products.map zeroRecord

/-- The function `updateSingleCount` (App.tsx lines 288-298): the matching item's
single count becomes `max(0, singleCount + delta)`. -/
def updateSingleCount (productId : List Char) (delta : Int)
    (items : List CountItem) : List CountItem :=
  items.map fun item =>
    if item.productId = productId then
      { item with singleCount := max 0 (item.singleCount + delta) }
    else item

/-- The function `updatePackageCount` (App.tsx lines 301-311): the matching item's
package count becomes `max(0, packageCount + delta)`. -/
def updatePackageCount (productId : List Char) (delta : Int)
    (items : List CountItem) : List CountItem :=
  items.map fun item =>
    if item.productId = productId then
      { item with packageCount := max 0 (item.packageCount + delta) }
    else item

/-- The two tracks a count button addresses (`"single" | "package"`). -/
inductive Track where
  | single
  | package
deriving DecidableEq, Repr

/-- The target stored for the long-press dialog
(`numberDialogProduct`, App.tsx line 53). -/
structure DialogTarget where
  productId : List Char
  track : Track
  sign : Int
deriving DecidableEq, Repr

/-- The input filter of the dialog field (App.tsx line 910):
`value.replace(/[^\d-]/g, "")` keeps exactly digits and minus signs. -/
def jsDigitFilter (cs : List Char) : List Char :=
  cs.filter fun c => isDigitChar c || c = '-'

/-- The function `handleNumberDialogSubmit` (App.tsx lines 320-334), as a function of
the dialog target, the entered text and the current count list:
`parseInt(value || "0", 10)`; a `NaN` or zero result closes the dialog
with no effect, any other value is applied with `delta = sign * n`. -/
def handleNumberDialogSubmit (tgt : DialogTarget) (value : List Char)
    (items : List CountItem) : List CountItem :=
  let n := parseIntJS (if value.isEmpty then ['0'] else value)
  match n with
  | none => items
  | some n =>
    if n = 0 then items
    else
      let delta := tgt.sign * n
      match tgt.track with
      | .single => updateSingleCount tgt.productId delta items
      | .package => updatePackageCount tgt.productId delta items

/-- The function `getTotal` (App.tsx line 358):
`packageCount * packagingSize + singleCount`, as an exact `JsNum`. -/
def getTotal (item : CountItem) : JsNum :=
  ⟨item.packageCount * item.packagingSize.num
     + item.singleCount * (10 : Int) ^ item.packagingSize.scale,
   item.packagingSize.scale⟩

/-- The one error condition of `submitCount`. -/
inductive SubmitError where
  | noActiveSession
deriving DecidableEq, Repr

/-- The function `submitCount` (App.tsx lines 361-377).  The source guards with
`if (!currentForm) return`, leaving the state untouched; the embedding
surfaces that early return as `NoActiveSessionError`.  On success a new
archive entry (fresh id token, template name, current timestamp, the
snapshot of the count list) is prepended to the archive and the active
session is cleared.  The id token and timestamp (two clock reads in the
source) are parameters. -/
def submitCount (idTok now : List Char) (s : AppState) :
    Except SubmitError AppState :=
  match s.currentForm with
  | none => .error .noActiveSession
  | some f =>
    .ok { s with
            savedCounts := ⟨idTok, f.name, now, s.currentCounts⟩ :: s.savedCounts,
            currentForm := none,
            currentCounts := [] }

/-- One data row of the exported CSV (App.tsx lines 390-394): product
id, product name, packaging size, package count, single count, total.
The source interpolates exactly these six values into each line after
the header row. -/
def exportRow (item : CountItem) :
    List Char × List Char × JsNum × Int × Int × JsNum :=
  (item.productId, item.productName, item.packagingSize,
   item.packageCount, item.singleCount, getTotal item)

/-- The data rows of `exportCount` (App.tsx lines 380-403), one per
archived count record, in order. -/
def exportRows (count : SavedCount) :
    List (List Char × List Char × JsNum × Int × Int × JsNum) :=
  count.items.map exportRow

/-- A raw stored archive item as read back from the store before
migration (App.tsx lines 71-88): the current schema's fields may be
absent, and a legacy combined `count` field may be present.  Numeric
fields are modelled as integers (see the file header). -/
structure RawItem where
  productId : List Char
  productName : List Char
  packagingSize : Option Int
  packageCount : Option Int
  singleCount : Option Int
  count : Option Int
deriving DecidableEq, Repr

/-- A raw stored archive entry before migration. -/
structure RawSaved where
  id : List Char
  formName : List Char
  timestamp : List Char
  items : List RawItem
deriving DecidableEq, Repr

/-- The reconstruction divisor `anyIt.packagingSize || 1`
(App.tsx line 77): a missing or falsy (zero) packaging size is replaced
by 1; any other stored value is used as is. -/
def legacyDivisor (it : RawItem) : Int :=
  match it.packagingSize with
  | none => 1
  | some p => if p = 0 then 1 else p

/-- Migration of one stored item (App.tsx lines 71-88): an item already
carrying both `packageCount` and `singleCount` is passed through
unchanged (`{ ...anyIt }`); otherwise the legacy total
(`Number(anyIt.count ?? 0)`) is split into
`Math.floor(total / packagingSize)` packages (floor division,
`Int.fdiv`) and `total % packagingSize` singles (JavaScript remainder,
`Int.tmod`), and the rebuilt item carries no legacy `count` field. -/
def migrateItem (it : RawItem) : RawItem :=
  if it.packageCount.isSome ∧ it.singleCount.isSome then it
  else
    let packagingSize := legacyDivisor it
    let total := it.count.getD 0
    { productId := it.productId
      productName := it.productName
      packagingSize := some packagingSize
      packageCount := some (Int.fdiv total packagingSize)
      singleCount := some (Int.tmod total packagingSize)
      count := none }

/-- The archive migration (App.tsx lines 69-89): every stored entry's
item list is migrated item by item; the entry's other fields are kept. -/
def migrateLegacy (scs : List RawSaved) : List RawSaved :=
  scs.map fun sc => { sc with items := sc.items.map migrateItem }

/-- The function `saveTemplate` (App.tsx lines 239-267), reduced to its product-list
content: the new template's products are the entered products sorted by
the same comparator as the import path (lines 253-257). -/
def saveTemplateProducts (newTemplateProducts : List Product) : List Product :=
  sortProducts newTemplateProducts

/-- The operations that commit a mutation of the active session state,
each one followed by the persistence effect (the `useEffect` on
`[currentForm, currentCounts]` runs after every commit). -/
inductive Op where
  | startCounting (templateId : List Char)
  | adjustSingle (productId : List Char) (delta : Int)
  | adjustPackage (productId : List Char) (delta : Int)
  | dialogSubmit (tgt : DialogTarget) (value : List Char)
  | submit (idTok now : List Char)
  | cancel
  | resumeSession (resume : Bool)

/-- The state transition of each operation (App.tsx: `startCounting`
lines 270-285, the update helpers lines 288-311, the dialog lines
320-334, `submitCount` lines 361-377, the count-screen Cancel button
lines 807-810, `handleResumeSession` lines 462-472), each followed by
`persistEffect`. -/
def applyOp (op : Op) (s : AppState) : AppState :=
  match op with
  | .startCounting tid =>
    match s.templates.find? (fun t => t.id = tid) with
    | none => persistEffect s
    | some t =>
      persistEffect { s with currentForm := some t, currentCounts := startCounts t }
  | .adjustSingle pid d =>
    persistEffect { s with currentCounts := updateSingleCount pid d s.currentCounts }
  | .adjustPackage pid d =>
    persistEffect { s with currentCounts := updatePackageCount pid d s.currentCounts }
  | .dialogSubmit tgt value =>
    persistEffect
      { s with currentCounts := handleNumberDialogSubmit tgt value s.currentCounts }
  | .submit idTok now =>
    match submitCount idTok now s with
    | .ok s2 => persistEffect s2
    | .error _ => persistEffect s
  | .cancel =>
    persistEffect { s with currentForm := none, currentCounts := [] }
  | .resumeSession resume =>
    if resume then persistEffect s
    else persistEffect { s with currentForm := none, currentCounts := [] }

/-- A count adjustment as classified by the interaction layer: a track,
a product and a signed delta (a unit press gives `delta = ±1`, a
confirmed dialog entry gives `delta = sign * n`). -/
inductive Adj where
  | single (productId : List Char) (delta : Int)
  | package (productId : List Char) (delta : Int)

/-- Apply one adjustment to a count list. -/
def applyAdj (items : List CountItem) (a : Adj) : List CountItem :=
  match a with
  | .single pid d => updateSingleCount pid d items
  | .package pid d => updatePackageCount pid d items

/-- Apply a sequence of adjustments, first one first. -/
def applyAdjs (items : List CountItem) (adjs : List Adj) : List CountItem :=
  adjs.foldl applyAdj items

/-- A nonblank import line is offending exactly when it resolves to at
least 3 cleaned fields (so that `(cleanFields l)[2]?` is `some`) and its
third field does not parse as a number. -/
def offendingLine (l : List Char) : Bool :=
  match (cleanFields l)[2]? with
  | some v => (parseFloatJS v).isNone
  | none => false

/-- Every count record of the list has both counts nonnegative. -/
def countsNonneg (items : List CountItem) : Prop :=
  ∀ item ∈ items, 0 ≤ item.packageCount ∧ 0 ≤ item.singleCount

instance (items : List CountItem) : Decidable (countsNonneg items) := by
  unfold countsNonneg; infer_instance

lemma countsNonneg_updateSingleCount (pid : List Char) (d : Int)
    (items : List CountItem) (h : countsNonneg items) :
    countsNonneg (updateSingleCount pid d items) := by
  intro item hmem
  unfold updateSingleCount at hmem
  rw [List.mem_map] at hmem
  obtain ⟨it0, h0, rfl⟩ := hmem
  by_cases heq : it0.productId = pid
  · simp only [heq, if_pos rfl]
    exact ⟨(h it0 h0).1, le_max_left _ _⟩
  · simp only [if_neg heq]
    exact h it0 h0

lemma countsNonneg_updatePackageCount (pid : List Char) (d : Int)
    (items : List CountItem) (h : countsNonneg items) :
    countsNonneg (updatePackageCount pid d items) := by
  intro item hmem
  unfold updatePackageCount at hmem
  rw [List.mem_map] at hmem
  obtain ⟨it0, h0, rfl⟩ := hmem
  by_cases heq : it0.productId = pid
  · simp only [heq, if_pos rfl]
    exact ⟨le_max_left _ _, (h it0 h0).2⟩
  · simp only [if_neg heq]
    exact h it0 h0

lemma countsNonneg_applyAdj (items : List CountItem) (a : Adj)
    (h : countsNonneg items) : countsNonneg (applyAdj items a) := by
  cases a with
  | single pid d => exact countsNonneg_updateSingleCount pid d items h
  | package pid d => exact countsNonneg_updatePackageCount pid d items h

/-- C1: for every reachable session state (zeroed at session start) and
every sequence of count adjustments of either sign and either track —
unit presses and dialog-entered quantities alike — every count record's
package count and single count remain nonnegative: each adjustment
clamps at zero via `max(0, oldCount + delta)`.  Every intermediate state
is covered because every prefix of an adjustment sequence is itself an
adjustment sequence. -/
theorem counts_never_negative :
    (∀ t : FormTemplate, countsNonneg (startCounts t)) ∧
    (∀ items : List CountItem, countsNonneg items →
      ∀ adjs : List Adj, countsNonneg (applyAdjs items adjs)) := by
  constructor
  · intro t item hmem
    unfold startCounts at hmem
    rw [List.mem_map] at hmem
    obtain ⟨p, _, rfl⟩ := hmem
    exact ⟨le_refl 0, le_refl 0⟩
  · intro items h adjs
    induction adjs generalizing items with
    | nil => exact h
    | cons a rest ih => exact ih (applyAdj items a) (countsNonneg_applyAdj items a h)

/-- Witness for C1 at a concrete state and adjustment sequence. -/
theorem counts_never_negative_witness :
    countsNonneg (applyAdjs [⟨"a".data, "a".data, ⟨1, 0⟩, 0, 0⟩]
      [Adj.single "a".data 3, Adj.single "a".data (-5),
       Adj.package "a".data (-7), Adj.package "a".data 2]) :=
  counts_never_negative.2 _ (by decide) _

/-- C2: `submitCount` with no selected template fails with the
no-active-session condition (the source's `if (!currentForm) return`
guard) and changes nothing; with a selected template it prepends a new
archive entry holding the template name, the current timestamp and the
snapshot of all count records, and clears the active session. -/
theorem submitCount_spec :
    ∀ (idTok now : List Char) (s : AppState),
      (s.currentForm = none →
        submitCount idTok now s = .error .noActiveSession) ∧
      (∀ f, s.currentForm = some f →
        submitCount idTok now s =
          .ok { s with
                  savedCounts :=
                    ⟨idTok, f.name, now, s.currentCounts⟩ :: s.savedCounts,
                  currentForm := none,
                  currentCounts := [] }) := by
  intro idTok now s
  constructor
  · intro h; simp [submitCount, h]
  · intro f h; simp [submitCount, h]

/-- Witness for C2: both branches at concrete states. -/
theorem submitCount_spec_witness :
    submitCount "1".data "t1".data ⟨[], [], none, [], none⟩ =
      .error .noActiveSession ∧
    submitCount "1".data "t1".data
        ⟨[], [], some ⟨"i".data, "n".data, [], "c".data⟩,
         [⟨"p".data, "q".data, ⟨2, 0⟩, 1, 0⟩], none⟩ =
      .ok ⟨[], [⟨"1".data, "n".data, "t1".data,
                 [⟨"p".data, "q".data, ⟨2, 0⟩, 1, 0⟩]⟩],
           none, [], none⟩ :=
  ⟨(submitCount_spec _ _ _).1 rfl, (submitCount_spec _ _ _).2 _ rfl⟩

/-- C3: legacy-archive migration of one stored record: a record already
carrying both `packageCount` and `singleCount` passes through unchanged;
otherwise, with the packaging size defaulting to 1 when missing (or
falsy) and the total taken from the legacy `count` field, the result has
package count `floor(total / packagingSize)` (`Int.fdiv`) and single
count `total % packagingSize` (JavaScript remainder, `Int.tmod`; equal
to the ordinary mod for the nonnegative totals of legacy records).  In
particular packaging size 12 with legacy total 29 yields package count 2
and single count 5. -/
theorem migrateItem_spec :
    ∀ it : RawItem,
      (it.packageCount.isSome → it.singleCount.isSome → migrateItem it = it) ∧
      (¬(it.packageCount.isSome ∧ it.singleCount.isSome) →
        (migrateItem it).packageCount =
            some (Int.fdiv (it.count.getD 0) (legacyDivisor it)) ∧
          (migrateItem it).singleCount =
            some (Int.tmod (it.count.getD 0) (legacyDivisor it))) ∧
      migrateItem ⟨"p".data, "n".data, some 12, none, none, some 29⟩ =
        ⟨"p".data, "n".data, some 12, some 2, some 5, none⟩ := by
  intro it
  refine ⟨fun h1 h2 => ?_, fun h => ?_, by decide⟩
  · simp [migrateItem, h1, h2]
  · unfold migrateItem
    rw [if_neg h]
    exact ⟨rfl, rfl⟩

/-- Witness for C3: the pass-through branch on an already-migrated
record and the reconstruction branch on a legacy record. -/
theorem migrateItem_spec_witness :
    migrateItem ⟨"p".data, "n".data, some 12, some 3, some 4, some 99⟩ =
      ⟨"p".data, "n".data, some 12, some 3, some 4, some 99⟩ ∧
    (migrateItem ⟨"q".data, "m".data, none, none, some 7, some 29⟩).packageCount =
      some 29 ∧
    (migrateItem ⟨"q".data, "m".data, none, none, some 7, some 29⟩).singleCount =
      some 0 :=
  ⟨(migrateItem_spec _).1 rfl rfl,
   ((migrateItem_spec ⟨"q".data, "m".data, none, none, some 7, some 29⟩).2.1
      (by decide)).1,
   ((migrateItem_spec ⟨"q".data, "m".data, none, none, some 7, some 29⟩).2.1
      (by decide)).2⟩

lemma migrateItem_fields_some (it : RawItem) :
    (migrateItem it).packageCount.isSome ∧ (migrateItem it).singleCount.isSome := by
  unfold migrateItem
  by_cases h : it.packageCount.isSome ∧ it.singleCount.isSome
  · rw [if_pos h]; exact h
  · rw [if_neg h]; exact ⟨rfl, rfl⟩

lemma migrateItem_idem (it : RawItem) :
    migrateItem (migrateItem it) = migrateItem it := by
  have hs := migrateItem_fields_some it
  set m := migrateItem it with hm
  unfold migrateItem
  rw [if_pos hs]

/-- C4: legacy migration is idempotent: migrating an already-migrated
archive changes nothing, because migration leaves every item with both
`packageCount` and `singleCount` present and such items pass through
unchanged. -/
theorem migrateLegacy_idempotent :
    ∀ scs : List RawSaved, migrateLegacy (migrateLegacy scs) = migrateLegacy scs := by
  intro scs
  unfold migrateLegacy
  rw [List.map_map]
  apply List.map_congr_left
  intro sc _
  simp only [Function.comp_apply, List.map_map]
  congr 1
  apply List.map_congr_left
  intro it _
  exact migrateItem_idem it

/-- C5 counterexample: the dialog's input filter
(`replace(/[^\d-]/g, "")`, App.tsx line 910) keeps minus signs, so
"-5" is a confirmable entry; `handleNumberDialogSubmit` parses it to
-5, which is neither `NaN` nor zero, and applies it — here a single
count of 10 drops to 5 — although -5 is not a positive integer.  This
refutes "the entered value n is applied ... only if n is a positive
integer". -/
theorem dialog_negative_entry_cex :
    jsDigitFilter "-5".data = "-5".data ∧
    parseIntJS "-5".data = some (-5) ∧
    handleNumberDialogSubmit ⟨"a".data, Track.single, 1⟩ "-5".data
        [⟨"a".data, "a".data, ⟨1, 0⟩, 0, 10⟩] =
      [⟨"a".data, "a".data, ⟨1, 0⟩, 0, 5⟩] := by
  decide

/-- C5 (amended): a confirmed dialog entry is applied as a count
adjustment of `delta = sign * n` exactly when `value || "0"` parses
(radix 10) to a nonzero integer `n` — negative entries included, since
the input filter admits minus signs; an empty entry, an entry parsing to
zero, and a non-numeric entry close the dialog with zero effect on every
count record. -/
theorem handleNumberDialogSubmit_spec :
    ∀ (tgt : DialogTarget) (value : List Char) (items : List CountItem),
      (parseIntJS (if value.isEmpty then ['0'] else value) = none →
        handleNumberDialogSubmit tgt value items = items) ∧
      (parseIntJS (if value.isEmpty then ['0'] else value) = some 0 →
        handleNumberDialogSubmit tgt value items = items) ∧
      (∀ n, parseIntJS (if value.isEmpty then ['0'] else value) = some n →
        n ≠ 0 →
        handleNumberDialogSubmit tgt value items =
          match tgt.track with
          | .single => updateSingleCount tgt.productId (tgt.sign * n) items
          | .package => updatePackageCount tgt.productId (tgt.sign * n) items) := by
  intro tgt value items
  refine ⟨fun h => ?_, fun h => ?_, fun n h hn => ?_⟩
  · unfold handleNumberDialogSubmit
    rw [h]
  · unfold handleNumberDialogSubmit
    rw [h]
    simp
  · unfold handleNumberDialogSubmit
    rw [h]
    simp [hn]

/-- Witness for C5 (amended): a cancelling entry and an applied entry at
concrete inputs. -/
theorem handleNumberDialogSubmit_spec_witness :
    handleNumberDialogSubmit ⟨"a".data, Track.single, 1⟩ "0".data
        [⟨"a".data, "a".data, ⟨1, 0⟩, 0, 10⟩] =
      [⟨"a".data, "a".data, ⟨1, 0⟩, 0, 10⟩] ∧
    handleNumberDialogSubmit ⟨"a".data, Track.package, -1⟩ "7".data
        [⟨"a".data, "a".data, ⟨1, 0⟩, 9, 0⟩] =
      updatePackageCount "a".data (-7) [⟨"a".data, "a".data, ⟨1, 0⟩, 9, 0⟩] :=
  ⟨(handleNumberDialogSubmit_spec _ _ _).2.1 (by decide),
   (handleNumberDialogSubmit_spec ⟨"a".data, Track.package, -1⟩ "7".data
      [⟨"a".data, "a".data, ⟨1, 0⟩, 9, 0⟩]).2.2 7 (by decide) (by decide)⟩

/-- C10 counterexample: the reconstruction divisor is not always at
least 1.  A stored legacy record with a present, truthy packaging size
of -3 passes it through: the divisor is -3 (and the reconstructed
package count for legacy total 7 is `Math.floor(7 / -3) = -3`). -/
theorem legacyDivisor_not_ge_one_cex :
    legacyDivisor ⟨"p".data, "n".data, some (-3), none, none, some 7⟩ = -3 ∧
    ¬(1 ≤ legacyDivisor ⟨"p".data, "n".data, some (-3), none, none, some 7⟩) ∧
    (migrateItem ⟨"p".data, "n".data, some (-3), none, none, some 7⟩).packageCount =
      some (-3) := by
  decide

/-- C10 (amended): legacy migration is total and never divides by zero:
for every stored record lacking the `packageCount`/`singleCount` fields,
a missing, zero or otherwise falsy packaging size is replaced by 1
before the floor division and remainder are computed, so the
reconstruction divisor is always nonzero — but a present nonzero stored
packaging size (negative values included) is used as is, so the divisor
is not in general at least 1. -/
theorem legacyDivisor_nonzero :
    ∀ it : RawItem,
      legacyDivisor it ≠ 0 ∧
      ((it.packagingSize = none ∨ it.packagingSize = some 0) →
        legacyDivisor it = 1) ∧
      (¬(it.packageCount.isSome ∧ it.singleCount.isSome) →
        (migrateItem it).packageCount =
            some (Int.fdiv (it.count.getD 0) (legacyDivisor it)) ∧
          (migrateItem it).singleCount =
            some (Int.tmod (it.count.getD 0) (legacyDivisor it))) := by
  intro it
  refine ⟨?_, fun h => ?_, fun h => ?_⟩
  · unfold legacyDivisor
    cases it.packagingSize with
    | none => decide
    | some p =>
      show (if p = 0 then (1 : Int) else p) ≠ 0
      by_cases hp : p = 0
      · rw [if_pos hp]; decide
      · rw [if_neg hp]; exact hp
  · unfold legacyDivisor
    rcases h with h | h <;> rw [h] <;> simp
  · unfold migrateItem
    rw [if_neg h]
    exact ⟨rfl, rfl⟩

/-- Witness for C10 (amended) at concrete records: a missing and a zero
packaging size both give divisor 1, used in the reconstruction. -/
theorem legacyDivisor_nonzero_witness :
    legacyDivisor ⟨"p".data, "n".data, none, none, none, some 29⟩ = 1 ∧
    legacyDivisor ⟨"p".data, "n".data, some 0, none, none, some 29⟩ = 1 ∧
    (migrateItem ⟨"p".data, "n".data, none, none, none, some 29⟩).packageCount =
      some 29 :=
  ⟨(legacyDivisor_nonzero _).2.1 (Or.inl rfl),
   (legacyDivisor_nonzero _).2.1 (Or.inr rfl),
   ((legacyDivisor_nonzero ⟨"p".data, "n".data, none, none, none, some 29⟩).2.2
      (by decide)).1⟩

/-- C9: after every committed mutation of the active session state
(template selection, any count-record change, a dialog entry, submit,
abandon, and the resume decision), the durable session key holds the
full session exactly when a template is selected and the count-record
list is nonempty, and is removed otherwise; in particular both submit
and abandon (the count screen's Cancel, and discarding at the resume
prompt) leave no persisted session. -/
theorem sessionPersistence_spec :
    (∀ (op : Op) (s : AppState),
      (applyOp op s).storageSession =
        match (applyOp op s).currentForm with
        | some f =>
          if (applyOp op s).currentCounts.isEmpty then none
          else some ⟨f, (applyOp op s).currentCounts⟩
        | none => none) ∧
    (∀ (idTok now : List Char) (s : AppState),
      (applyOp (.submit idTok now) s).storageSession = none) ∧
    (∀ s : AppState, (applyOp .cancel s).storageSession = none) ∧
    (∀ s : AppState, (applyOp (.resumeSession false) s).storageSession = none) := by
  have hpe : ∀ t : AppState,
      (persistEffect t).storageSession =
        match (persistEffect t).currentForm with
        | some f =>
          if (persistEffect t).currentCounts.isEmpty then none
          else some ⟨f, (persistEffect t).currentCounts⟩
        | none => none := by
    intro t; rfl
  refine ⟨fun op s => ?_, fun idTok now s => ?_, fun s => ?_, fun s => ?_⟩
  · cases op with
    | startCounting tid =>
      simp only [applyOp]
      cases s.templates.find? (fun t => t.id = tid) <;> exact hpe _
    | adjustSingle pid d => exact hpe _
    | adjustPackage pid d => exact hpe _
    | dialogSubmit tgt value => exact hpe _
    | submit idTok now =>
      simp only [applyOp]
      cases submitCount idTok now s <;> exact hpe _
    | cancel => exact hpe _
    | resumeSession r =>
      simp only [applyOp]
      cases r <;> exact hpe _
  · cases hf : s.currentForm
    all_goals simp [applyOp, submitCount, hf, persistEffect]
  · simp [applyOp, persistEffect]
  · simp [applyOp, persistEffect]

lemma leKey_of_eq {a b : Product} (h : a.sortIndex = b.sortIndex) :
    leKey a b = true := by
  unfold leKey
  rw [h]
  cases b.sortIndex with
  | none => rfl
  | some x => simp

lemma leKey_total (a b : Product) : leKey a b = true ∨ leKey b a = true := by
  obtain ⟨_, _, _, ia⟩ := a
  obtain ⟨_, _, _, ib⟩ := b
  cases ia <;> cases ib <;> simp [leKey] <;> omega

lemma leKey_trans {a b c : Product} (h1 : leKey a b = true)
    (h2 : leKey b c = true) : leKey a c = true := by
  obtain ⟨_, _, _, ia⟩ := a
  obtain ⟨_, _, _, ib⟩ := b
  obtain ⟨_, _, _, ic⟩ := c
  cases ia <;> cases ib <;> cases ic <;> simp_all [leKey] <;> omega

lemma perm_orderedInsertP (a : Product) (l : List Product) :
    (orderedInsertP a l).Perm (a :: l) := by
  induction l with
  | nil => exact List.Perm.refl _
  | cons b l ih =>
    unfold orderedInsertP
    by_cases hab : leKey a b = true
    · rw [if_pos hab]
    · rw [if_neg hab]
      exact (ih.cons b).trans (List.Perm.swap a b l)

lemma pairwise_orderedInsertP (a : Product) (l : List Product)
    (h : l.Pairwise (fun x y => leKey x y = true)) :
    (orderedInsertP a l).Pairwise (fun x y => leKey x y = true) := by
  induction l with
  | nil => simp [orderedInsertP]
  | cons b l ih =>
    rw [List.pairwise_cons] at h
    obtain ⟨hb, hl⟩ := h
    unfold orderedInsertP
    by_cases hab : leKey a b = true
    · rw [if_pos hab, List.pairwise_cons]
      refine ⟨?_, List.pairwise_cons.mpr ⟨hb, hl⟩⟩
      intro x hx
      rcases List.mem_cons.mp hx with rfl | hx
      · exact hab
      · exact leKey_trans hab (hb x hx)
    · rw [if_neg hab, List.pairwise_cons]
      refine ⟨?_, ih hl⟩
      intro x hx
      rcases List.mem_cons.mp ((perm_orderedInsertP a l).mem_iff.mp hx) with hxa | hx
      · rw [hxa]
        exact (leKey_total a b).resolve_left hab
      · exact hb x hx

lemma pairwise_sortProducts (l : List Product) :
    (sortProducts l).Pairwise (fun x y => leKey x y = true) := by
  induction l with
  | nil => simp [sortProducts]
  | cons a l ih => exact pairwise_orderedInsertP a _ ih

lemma perm_sortProducts (l : List Product) : (sortProducts l).Perm l := by
  induction l with
  | nil => exact List.Perm.refl _
  | cons a l ih => exact (perm_orderedInsertP a _).trans (ih.cons a)

lemma filter_orderedInsertP (k : Option Int) (a : Product) (l : List Product) :
    (orderedInsertP a l).filter (fun p => decide (p.sortIndex = k)) =
      (a :: l).filter (fun p => decide (p.sortIndex = k)) := by
  induction l with
  | nil => rfl
  | cons b l ih =>
    unfold orderedInsertP
    by_cases hab : leKey a b = true
    · rw [if_pos hab]
    · rw [if_neg hab]
      by_cases pa : a.sortIndex = k <;> by_cases pb : b.sortIndex = k
      · exact absurd (leKey_of_eq (pa.trans pb.symm)) hab
      · simp [List.filter_cons, pa, pb, ih]
      · simp [List.filter_cons, pa, pb, ih]
      · simp [List.filter_cons, pa, pb, ih]

lemma filter_sortProducts (k : Option Int) (l : List Product) :
    (sortProducts l).filter (fun p => decide (p.sortIndex = k)) =
      l.filter (fun p => decide (p.sortIndex = k)) := by
  induction l with
  | nil => rfl
  | cons a l ih =>
    show (orderedInsertP a (sortProducts l)).filter _ = _
    rw [filter_orderedInsertP]
    simp [List.filter_cons, ih]

/-- C7: both template-building paths (import, App.tsx lines 173-178, and
manual save, lines 253-257) order the product list with the same
comparator, modelled by the stable sort `sortProducts`.  The result is
sorted ascending by sort index with absent indices last — `Pairwise
leKey`, and `leKey x y = false` whenever `x` has no index and `y` has
one, so no index-less item precedes an indexed one — it is a permutation
of the input, and items with any fixed sort index (equal indices, and
the absentees together) keep their original relative order (the filter
equations).  Concretely, indices [3, 1, none, 2] reorder to [1, 2, 3,
none], and two items sharing an index stay in entry order. -/
theorem sortProducts_spec :
    (∀ l : List Product,
      (sortProducts l).Pairwise (fun a b => leKey a b = true) ∧
      (sortProducts l).Perm l ∧
      ∀ k : Option Int,
        (sortProducts l).filter (fun p => decide (p.sortIndex = k)) =
          l.filter (fun p => decide (p.sortIndex = k))) ∧
    (∀ text : List Char,
      parseCSV text =
        match parseRows 0 (filteredLines text) with
        | .error e => .error e
        | .ok prods => .ok (sortProducts prods)) ∧
    (∀ ps : List Product, saveTemplateProducts ps = sortProducts ps) ∧
    sortProducts
        [⟨"a".data, [], ⟨1, 0⟩, some 3⟩, ⟨"b".data, [], ⟨1, 0⟩, some 1⟩,
         ⟨"c".data, [], ⟨1, 0⟩, none⟩, ⟨"d".data, [], ⟨1, 0⟩, some 2⟩] =
      [⟨"b".data, [], ⟨1, 0⟩, some 1⟩, ⟨"d".data, [], ⟨1, 0⟩, some 2⟩,
       ⟨"a".data, [], ⟨1, 0⟩, some 3⟩, ⟨"c".data, [], ⟨1, 0⟩, none⟩] ∧
    sortProducts
        [⟨"x".data, [], ⟨1, 0⟩, some 1⟩, ⟨"y".data, [], ⟨1, 0⟩, some 1⟩] =
      [⟨"x".data, [], ⟨1, 0⟩, some 1⟩, ⟨"y".data, [], ⟨1, 0⟩, some 1⟩] := by
  refine ⟨fun l => ⟨pairwise_sortProducts l, perm_sortProducts l,
            fun k => filter_sortProducts k l⟩,
          fun text => rfl, fun ps => rfl, by decide, by decide⟩

/-- C8: import-export round trip.  For every import text that parses,
selecting the imported template, starting a session (all counts zero)
and submitting archives a snapshot whose export data rows list, for
every imported item in order, exactly its ID, its name and its packaging
size as parsed from the input, with package count 0, single count 0, and
a total equal in value to 0. -/
theorem importExportRoundTrip :
    ∀ (text : List Char) (products : List Product)
      (idTok now tid tname created : List Char) (s : AppState),
      parseCSV text = .ok products →
      (let tmpl : FormTemplate := ⟨tid, tname, products, created⟩
       let s1 : AppState :=
         { s with currentForm := some tmpl, currentCounts := startCounts tmpl }
       let saved : SavedCount := ⟨idTok, tname, now, startCounts tmpl⟩
       submitCount idTok now s1 =
           .ok { s1 with savedCounts := saved :: s.savedCounts,
                         currentForm := none, currentCounts := [] } ∧
       exportRows saved =
           products.map (fun p =>
             (p.id, p.name, p.packagingSize, (0 : Int), (0 : Int),
               getTotal (zeroRecord p))) ∧
       ∀ p ∈ products, (getTotal (zeroRecord p)).valEq (JsNum.ofInt 0)) := by
  intro text products idTok now tid tname created s _
  refine ⟨rfl, ?_, ?_⟩
  · show (startCounts ⟨tid, tname, products, created⟩).map exportRow = _
    unfold startCounts
    rw [List.map_map]
    rfl
  · intro p _
    show ((zeroRecord p).packageCount * p.packagingSize.num
            + (zeroRecord p).singleCount * (10 : Int) ^ p.packagingSize.scale)
          * (10 : Int) ^ (0 : Nat)
        = 0 * (10 : Int) ^ p.packagingSize.scale
    show ((0 : Int) * p.packagingSize.num
            + (0 : Int) * (10 : Int) ^ p.packagingSize.scale) * (10 : Int) ^ (0 : Nat)
        = 0 * (10 : Int) ^ p.packagingSize.scale
    ring

/-- Witness for C8 at the README's example import file. -/
theorem importExportRoundTrip_witness :
    exportRows ⟨"7".data, "f".data, "t".data,
        startCounts ⟨"5".data, "f".data,
          [⟨"SKU001".data, "Widget A".data, ⟨12, 0⟩, some 1⟩,
           ⟨"SKU002".data, "Widget B".data, ⟨6, 0⟩, some 2⟩], "c".data⟩⟩ =
      [("SKU001".data, "Widget A".data, ⟨12, 0⟩, (0 : Int), (0 : Int),
          getTotal (zeroRecord ⟨"SKU001".data, "Widget A".data, ⟨12, 0⟩, some 1⟩)),
       ("SKU002".data, "Widget B".data, ⟨6, 0⟩, (0 : Int), (0 : Int),
          getTotal (zeroRecord ⟨"SKU002".data, "Widget B".data, ⟨6, 0⟩, some 2⟩))] ∧
    (getTotal (zeroRecord ⟨"SKU001".data, "Widget A".data, ⟨12, 0⟩, some 1⟩)).valEq
      (JsNum.ofInt 0) :=
  ⟨(importExportRoundTrip "SKU001,Widget A,12,1\nSKU002,Widget B,6,2".data
      [⟨"SKU001".data, "Widget A".data, ⟨12, 0⟩, some 1⟩,
       ⟨"SKU002".data, "Widget B".data, ⟨6, 0⟩, some 2⟩]
      "7".data "t".data "5".data "f".data "c".data
      ⟨[], [], none, [], none⟩ (by decide)).2.1,
   (importExportRoundTrip "SKU001,Widget A,12,1\nSKU002,Widget B,6,2".data
      [⟨"SKU001".data, "Widget A".data, ⟨12, 0⟩, some 1⟩,
       ⟨"SKU002".data, "Widget B".data, ⟨6, 0⟩, some 2⟩]
      "7".data "t".data "5".data "f".data "c".data
      ⟨[], [], none, [], none⟩ (by decide)).2.2 _ (by decide)⟩

lemma parseRows_error_of_offending :
    ∀ (ls : List (List Char)) (i : Nat),
      (∃ l ∈ ls, offendingLine l = true) →
      ∃ e, parseRows i ls = .error e := by
  intro ls
  induction ls with
  | nil =>
    intro i h
    simp at h
  | cons l rest ih =>
    intro i h
    by_cases hl : offendingLine l = true
    · unfold offendingLine at hl
      cases hcv : (cleanFields l)[2]? with
      | none =>
        rw [hcv] at hl
        simp at hl
      | some v =>
        rw [hcv] at hl
        have hpf : parseFloatJS v = none := Option.isNone_iff_eq_none.mp hl
        exact ⟨⟨i + 1, v⟩, by simp [parseRows, hcv, hpf]⟩
    · have hrest : ∃ l2 ∈ rest, offendingLine l2 = true := by
        obtain ⟨l2, hmem, hofl⟩ := h
        rcases List.mem_cons.mp hmem with rfl | hmem2
        · exact absurd hofl hl
        · exact ⟨l2, hmem2, hofl⟩
      obtain ⟨e, he⟩ := ih (i + 1) hrest
      cases hcv : (cleanFields l)[2]? with
      | none => exact ⟨e, by simp [parseRows, hcv, he]⟩
      | some v =>
        cases hpf : parseFloatJS v with
        | none => exact ⟨⟨i + 1, v⟩, by simp [parseRows, hcv, hpf]⟩
        | some ps => exact ⟨e, by simp [parseRows, hcv, hpf, he]⟩

lemma parseRows_error_spec :
    ∀ (ls : List (List Char)) (i : Nat) (e : ParseError),
      parseRows i ls = .error e →
      ∃ j, ∃ hj : j < ls.length,
        e.row = i + j + 1 ∧
        offendingLine (ls.get ⟨j, hj⟩) = true ∧
        (cleanFields (ls.get ⟨j, hj⟩))[2]? = some e.field ∧
        ∀ k, ∀ hk : k < j,
          offendingLine (ls.get ⟨k, Nat.lt_trans hk hj⟩) = false := by
  intro ls
  induction ls with
  | nil =>
    intro i e h
    simp [parseRows] at h
  | cons l rest ih =>
    intro i e h
    rw [parseRows] at h
    cases hcv : (cleanFields l)[2]? with
    | none =>
      rw [hcv] at h
      obtain ⟨j, hj, hrow, hoff, hfield, hprev⟩ := ih (i + 1) e h
      refine ⟨j + 1, Nat.succ_lt_succ hj, by omega, hoff, hfield, ?_⟩
      intro k hk
      cases k with
      | zero => simp [offendingLine, hcv]
      | succ k2 => exact hprev k2 (Nat.lt_of_succ_lt_succ hk)
    | some psField =>
      rw [hcv] at h
      dsimp only at h
      cases hpf : parseFloatJS psField with
      | none =>
        rw [hpf] at h
        dsimp only at h
        cases Except.error.inj h
        refine ⟨0, Nat.succ_pos _, rfl, ?_, ?_, ?_⟩
        · simp [offendingLine, hcv, hpf]
        · exact hcv
        · intro k hk
          exact absurd hk (Nat.not_lt_zero k)
      | some ps =>
        rw [hpf] at h
        dsimp only at h
        cases hrec : parseRows (i + 1) rest with
        | error e2 =>
          rw [hrec] at h
          dsimp only at h
          cases Except.error.inj h
          obtain ⟨j, hj, hrow, hoff, hfield, hprev⟩ := ih (i + 1) _ hrec
          refine ⟨j + 1, Nat.succ_lt_succ hj, by omega, hoff, hfield, ?_⟩
          intro k hk
          cases k with
          | zero => simp [offendingLine, hcv, hpf]
          | succ k2 => exact hprev k2 (Nat.lt_of_succ_lt_succ hk)
        | ok prods =>
          rw [hrec] at h
          simp at h

/-- C6: import parsing fails exactly when some nonblank row with at
least 3 resolved fields has a non-numeric packaging-size (third) field;
the raised error identifies the first such row by its 1-based position
among the nonblank lines and carries the offending field text.  Rows
with fewer than 3 resolved fields are never offending, so they are
silently skipped and never cause a failure. -/
theorem parseCSV_error_spec :
    ∀ text : List Char,
      ((∃ l ∈ filteredLines text, offendingLine l = true) →
        ∃ e, parseCSV text = .error e) ∧
      (∀ e : ParseError, parseCSV text = .error e →
        ∃ j, ∃ hj : j < (filteredLines text).length,
          e.row = j + 1 ∧
          offendingLine ((filteredLines text).get ⟨j, hj⟩) = true ∧
          (cleanFields ((filteredLines text).get ⟨j, hj⟩))[2]? = some e.field ∧
          ∀ k, ∀ hk : k < j,
            offendingLine ((filteredLines text).get ⟨k, Nat.lt_trans hk hj⟩)
              = false) := by
  intro text
  constructor
  · intro h
    obtain ⟨e, he⟩ := parseRows_error_of_offending (filteredLines text) 0 h
    exact ⟨e, by simp [parseCSV, he]⟩
  · intro e he
    have hr : parseRows 0 (filteredLines text) = .error e := by
      unfold parseCSV at he
      cases hrec : parseRows 0 (filteredLines text) with
      | error e2 =>
        rw [hrec] at he
        simp only [] at he
        cases Except.error.inj he
        rfl
      | ok ps =>
        rw [hrec] at he
        simp at he
    obtain ⟨j, hj, hrow, hoff, hfield, hprev⟩ :=
      parseRows_error_spec (filteredLines text) 0 e hr
    rw [Nat.zero_add] at hrow
    exact ⟨j, hj, hrow, hoff, hfield, hprev⟩

/-- Witness for C6: a file whose second nonblank row has a non-numeric
third field makes the parse fail. -/
theorem parseCSV_error_spec_witness :
    (∃ l ∈ filteredLines "ID1,Name,12\nA,B,xy".data, offendingLine l = true) ∧
    ∃ e, parseCSV "ID1,Name,12\nA,B,xy".data = .error e :=
  ⟨by decide, (parseCSV_error_spec "ID1,Name,12\nA,B,xy".data).1 (by decide)⟩

